import Mathlib

/-!
Shallow embedding of the persistence layer of `P3_IMS.py` (Institute
Management System).  The program stores three SQLite tables (`person`,
`course`, `enrollment`); every exported operation is a single SQL
statement.  Here a database state is an explicit value of type `DB`
(the three tables as row lists plus the AUTOINCREMENT counters), and
each Python function becomes a Lean function on `DB`.  SQLite details
that matter to the claims are modelled explicitly:

* TEXT ordering (ORDER BY on `name` | `type`) uses the BINARY
  collation, i.e. byte order of the UTF-8 encoding, which coincides
  with code-point order; `strLe` below is that order.
* a `UNIQUE` column rejects a duplicate of any non-NULL value —
  including the empty string — while NULL never conflicts; an
  `Option String` field with `none` for NULL captures this.
* an `INSERT`/`UPDATE` violating a constraint raises
  `sqlite3.IntegrityError` and changes nothing; fallible operations
  return `Except Unit _`.
* a Python function without a `return` statement returns `None`;
  where a claim is about the returned value this is modelled as an
  explicit `Option Nat` result (always `none` for `add_person` and
  `add_course`, mirroring the source).
-/

namespace IMS

/-- Byte-wise (code-point) lexicographic comparison of char lists,
modelling the SQLite BINARY collation used by ORDER BY on TEXT. -/
def charListLe : List Char → List Char → Bool
  | [], _ => true
  | _ :: _, [] => false
  | a :: as, b :: bs =>
    if a.toNat < b.toNat then true
    else if b.toNat < a.toNat then false
    else charListLe as bs

/-- SQLite BINARY collation on strings. -/
def strLe (a b : String) : Bool := charListLe a.data b.data

/-- Row of the `person` table: id, type, name, email, phone, extra. -/
structure PersonRow where
  id : Nat
  ptype : String
  name : String
  email : String
  phone : String
  extra : String
deriving DecidableEq, Repr

/-- Row of the `course` table; `code` is `none` for SQL NULL and
`teacher_id` is `none` when unassigned. -/
structure CourseRow where
  id : Nat
  code : Option String
  title : String
  duration : String
  mode : String
  teacher_id : Option Nat
deriving DecidableEq, Repr

/-- Row of the `enrollment` table. -/
structure EnrollmentRow where
  id : Nat
  student_id : Nat
  course_id : Nat
deriving DecidableEq, Repr

/-- Whole database state: three tables plus AUTOINCREMENT counters
(SQLite assigns ids starting from 1). -/
structure DB where
  person : List PersonRow
  course : List CourseRow
  enrollment : List EnrollmentRow
  nextPersonId : Nat
  nextCourseId : Nat
  nextEnrollmentId : Nat
deriving DecidableEq, Repr

/-- Freshly initialised database (`init_db` on a missing file). -/
def db0 : DB := ⟨[], [], [], 1, 1, 1⟩

/-- Source `add_person`: INSERT INTO person(type,name,email,phone,extra).
The Python function has no return statement, so its value is `None`,
modelled as the `Option Nat` component being `none`. -/
def add_person (db : DB) (p_type name email phone extra : String) :
    Option Nat × DB :=
  (none,
   { db with
       person := db.person ++ [⟨db.nextPersonId, p_type, name, email, phone, extra⟩],
       nextPersonId := db.nextPersonId + 1 })

/-- Source `update_person`: UPDATE person SET name=?,email=?,phone=?,extra=?
WHERE id=?. -/
def update_person (db : DB) (person_id : Nat) (name email phone extra : String) : DB :=
  { db with
      person := db.person.map fun r =>
        if r.id = person_id then
          { r with name := name, email := email, phone := phone, extra := extra }
        else r }

/-- Source `delete_person`: DELETE FROM person WHERE id=?.  No cascade. -/
def delete_person (db : DB) (person_id : Nat) : DB :=
  { db with person := db.person.filter fun r => r.id != person_id }

/-- ORDER BY name on person rows. -/
def nameRel (a b : PersonRow) : Prop := strLe a.name b.name = true

instance : DecidableRel nameRel := fun a b =>
  inferInstanceAs (Decidable (strLe a.name b.name = true))

/-- ORDER BY type, name on person rows (lexicographic). -/
def typeNameRel (a b : PersonRow) : Prop :=
  strLe a.ptype b.ptype = true ∧ (a.ptype = b.ptype → strLe a.name b.name = true)

instance : DecidableRel typeNameRel := fun a b =>
  inferInstanceAs (Decidable (strLe a.ptype b.ptype = true ∧
    (a.ptype = b.ptype → strLe a.name b.name = true)))

/-- Result cell of a SELECT: INTEGER or TEXT. -/
inductive Cell where
  | int (n : Nat)
  | text (s : String)
deriving DecidableEq, Repr

/-- Columns `id,name,email,phone,extra` selected by `get_people` when a
type filter is given. -/
def personRow5 (r : PersonRow) : List Cell :=
  [.int r.id, .text r.name, .text r.email, .text r.phone, .text r.extra]

/-- Columns `id,type,name,email,phone,extra` selected by `get_people`
without a type filter. -/
def personRow6 (r : PersonRow) : List Cell :=
  [.int r.id, .text r.ptype, .text r.name, .text r.email, .text r.phone, .text r.extra]

/-- Source `get_people(p_type=None)`.  The Python guard is `if p_type:`,
a truthiness test, so both `None` and the empty string select the
no-filter branch. -/
def get_people (db : DB) (p_type : Option String) : List (List Cell) :=
  match p_type with
  | some t =>
      if t ≠ "" then
        (List.insertionSort nameRel (db.person.filter fun r => r.ptype == t)).map personRow5
      else
        (List.insertionSort typeNameRel db.person).map personRow6
  | none =>
      (List.insertionSort typeNameRel db.person).map personRow6

/-- UNIQUE check on `course.code`: a non-NULL value conflicts with any
row already holding the same value; NULL never conflicts. -/
def codeConflicts (code : Option String) (rows : List CourseRow) : Bool :=
  match code with
  | none => false
  | some v => rows.any fun r => r.code == some v

/-- Source `add_course`: INSERT INTO course(code,title,duration,mode).
Raises IntegrityError (modelled as `.error ()`) when the UNIQUE
constraint on `code` is violated; otherwise inserts one row
(with `teacher_id` NULL) and returns `None` like the Python function. -/
def add_course (db : DB) (code : Option String) (title duration mode : String) :
    Except Unit (Option Nat × DB) :=
  if codeConflicts code db.course then .error ()
  else
    .ok (none,
      { db with
          course := db.course ++ [⟨db.nextCourseId, code, title, duration, mode, none⟩],
          nextCourseId := db.nextCourseId + 1 })

/-- Source `update_course`: UPDATE course SET code=?,title=?,duration=?,
mode=?,teacher_id=? WHERE id=?.  When the target row exists and the new
code duplicates another row, the UNIQUE constraint raises
IntegrityError and nothing changes; a missing id updates zero rows. -/
def update_course (db : DB) (cid : Nat) (code : Option String)
    (title duration mode : String) (teacher_id : Option Nat) : Except Unit DB :=
  if (db.course.any fun r => r.id == cid) &&
     (match code with
      | none => false
      | some v => db.course.any fun r => r.id != cid && r.code == some v) then
    .error ()
  else
    .ok { db with
            course := db.course.map fun r =>
              if r.id = cid then
                { r with code := code, title := title, duration := duration,
                         mode := mode, teacher_id := teacher_id }
              else r }

/-- Source `delete_course`: DELETE FROM course WHERE id=?. -/
def delete_course (db : DB) (cid : Nat) : DB :=
  { db with course := db.course.filter fun r => r.id != cid }

/-- Source `assign_teacher_to_course`: UPDATE course SET teacher_id=?
WHERE id=?. -/
def assign_teacher_to_course (db : DB) (course_id teacher_id : Nat) : DB :=
  { db with
      course := db.course.map fun r =>
        if r.id = course_id then { r with teacher_id := some teacher_id } else r }

/-- UNIQUE(student_id, course_id) check on the enrollment table. -/
def enrollPairExists (db : DB) (student_id course_id : Nat) : Bool :=
  db.enrollment.any fun e => e.student_id == student_id && e.course_id == course_id

/-- Source `enroll_student`: tries INSERT INTO enrollment(student_id,
course_id); the UNIQUE(student_id, course_id) violation is caught and
turned into `False`, leaving the table unchanged; on success the row is
inserted and `True` returned. -/
def enroll_student (db : DB) (student_id course_id : Nat) : Bool × DB :=
  if enrollPairExists db student_id course_id then (false, db)
  else
    (true,
     { db with
         enrollment := db.enrollment ++ [⟨db.nextEnrollmentId, student_id, course_id⟩],
         nextEnrollmentId := db.nextEnrollmentId + 1 })

/-- Row of the Teacher→Course report: `t.id, t.name, c.id, c.code,
c.title` with the course columns NULL for an unmatched teacher. -/
structure TeacherReportRow where
  tid : Nat
  tname : String
  cid : Option Nat
  ccode : Option String
  ctitle : Option String
deriving DecidableEq, Repr

/-- LEFT JOIN expansion of one teacher against the course table: one
row per course taught, or a single all-NULL-course row when none. -/
def teacherRows (courses : List CourseRow) (t : PersonRow) : List TeacherReportRow :=
  match courses.filter fun c => c.teacher_id == some t.id with
  | [] => [⟨t.id, t.name, none, none, none⟩]
  | m :: ms => (m :: ms).map fun c => ⟨t.id, t.name, some c.id, c.code, some c.title⟩

/-- Source `get_teachers_with_courses`: SELECT over person LEFT JOIN
course ON t.id = c.teacher_id WHERE t.type = teacher ORDER BY t.name. -/
def get_teachers_with_courses (db : DB) : List TeacherReportRow :=
  (List.insertionSort nameRel (db.person.filter fun t => t.ptype == "teacher")).flatMap
    (teacherRows db.course)

/-! Order properties of the BINARY collation. -/

theorem charListLe_refl (l : List Char) : charListLe l l = true := by
  induction l with
  | nil => rfl
  | cons a as ih => simp [charListLe, ih]

theorem charListLe_total (l₁ l₂ : List Char) :
    charListLe l₁ l₂ = true ∨ charListLe l₂ l₁ = true := by
  induction l₁ generalizing l₂ with
  | nil => exact Or.inl rfl
  | cons a as ih =>
    cases l₂ with
    | nil => exact Or.inr rfl
    | cons b bs =>
      rcases Nat.lt_trichotomy a.toNat b.toNat with h | h | h
      · exact Or.inl (by simp [charListLe, h])
      · have hab : ¬ a.toNat < b.toNat := by omega
        have hba : ¬ b.toNat < a.toNat := by omega
        rcases ih bs with h2 | h2
        · exact Or.inl (by simp [charListLe, hab, hba, h2])
        · exact Or.inr (by simp [charListLe, hab, hba, h2])
      · exact Or.inr (by simp [charListLe, h])

theorem charListLe_trans : ∀ {l₁ l₂ l₃ : List Char},
    charListLe l₁ l₂ = true → charListLe l₂ l₃ = true → charListLe l₁ l₃ = true := by
  intro l₁
  induction l₁ with
  | nil => intro l₂ l₃ _ _; rfl
  | cons a as ih =>
    intro l₂ l₃ h₁ h₂
    cases l₂ with
    | nil => simp [charListLe] at h₁
    | cons b bs =>
      cases l₃ with
      | nil => simp [charListLe] at h₂
      | cons c cs =>
        rcases Nat.lt_trichotomy a.toNat b.toNat with hab | hab | hab
        · rcases Nat.lt_trichotomy b.toNat c.toNat with hbc | hbc | hbc
          · simp [charListLe]; omega
          · simp [charListLe]; omega
          · simp [charListLe, hbc, Nat.lt_asymm hbc] at h₂
        · rcases Nat.lt_trichotomy b.toNat c.toNat with hbc | hbc | hbc
          · simp [charListLe]; omega
          · have h1 : ¬ a.toNat < b.toNat := by omega
            have h2 : ¬ b.toNat < a.toNat := by omega
            have h3 : ¬ b.toNat < c.toNat := by omega
            have h4 : ¬ c.toNat < b.toNat := by omega
            have h5 : ¬ a.toNat < c.toNat := by omega
            have h6 : ¬ c.toNat < a.toNat := by omega
            simp [charListLe, h1, h2] at h₁
            simp [charListLe, h3, h4] at h₂
            simp [charListLe, h5, h6]
            exact ih h₁ h₂
          · simp [charListLe, hbc, Nat.lt_asymm hbc] at h₂
        · simp [charListLe, hab, Nat.lt_asymm hab] at h₁

theorem charListLe_antisymm : ∀ {l₁ l₂ : List Char},
    charListLe l₁ l₂ = true → charListLe l₂ l₁ = true → l₁ = l₂ := by
  intro l₁
  induction l₁ with
  | nil =>
    intro l₂ _ h₂
    cases l₂ with
    | nil => rfl
    | cons b bs => simp [charListLe] at h₂
  | cons a as ih =>
    intro l₂ h₁ h₂
    cases l₂ with
    | nil => simp [charListLe] at h₁
    | cons b bs =>
      rcases Nat.lt_trichotomy a.toNat b.toNat with hab | hab | hab
      · simp [charListLe, hab, Nat.lt_asymm hab] at h₂
      · have h1 : ¬ a.toNat < b.toNat := by omega
        have h2 : ¬ b.toNat < a.toNat := by omega
        simp [charListLe, h1, h2] at h₁ h₂
        have hc : a = b := Char.ext (UInt32.ext hab)
        rw [hc, ih h₁ h₂]
      · simp [charListLe, hab, Nat.lt_asymm hab] at h₁

theorem strLe_refl (s : String) : strLe s s = true := charListLe_refl s.data

theorem strLe_total (s₁ s₂ : String) : strLe s₁ s₂ = true ∨ strLe s₂ s₁ = true :=
  charListLe_total s₁.data s₂.data

theorem strLe_trans {s₁ s₂ s₃ : String} (h₁ : strLe s₁ s₂ = true)
    (h₂ : strLe s₂ s₃ = true) : strLe s₁ s₃ = true :=
  charListLe_trans h₁ h₂

theorem strLe_antisymm {s₁ s₂ : String} (h₁ : strLe s₁ s₂ = true)
    (h₂ : strLe s₂ s₁ = true) : s₁ = s₂ :=
  String.ext (charListLe_antisymm h₁ h₂)

instance : IsTotal PersonRow nameRel := ⟨fun a b => strLe_total a.name b.name⟩

instance : IsTrans PersonRow nameRel := ⟨fun _ _ _ => strLe_trans⟩

instance : IsTotal PersonRow typeNameRel := by
  constructor
  intro a b
  rcases strLe_total a.ptype b.ptype with h | h
  · by_cases hr : strLe b.ptype a.ptype = true
    · have heq : a.ptype = b.ptype := strLe_antisymm h hr
      rcases strLe_total a.name b.name with hn | hn
      · exact Or.inl ⟨h, fun _ => hn⟩
      · exact Or.inr ⟨hr, fun _ => hn⟩
    · exact Or.inl ⟨h, fun heq => absurd (heq ▸ strLe_refl a.ptype) hr⟩
  · by_cases hr : strLe a.ptype b.ptype = true
    · have heq : a.ptype = b.ptype := strLe_antisymm hr h
      rcases strLe_total a.name b.name with hn | hn
      · exact Or.inl ⟨hr, fun _ => hn⟩
      · exact Or.inr ⟨h, fun _ => hn⟩
    · exact Or.inr ⟨h, fun heq => absurd (heq ▸ strLe_refl a.ptype) hr⟩

instance : IsTrans PersonRow typeNameRel := by
  constructor
  intro a b c ⟨hab, nab⟩ ⟨hbc, nbc⟩
  refine ⟨strLe_trans hab hbc, fun hac => ?_⟩
  have hba : strLe b.ptype a.ptype = true := hac ▸ hbc
  have h1 : a.ptype = b.ptype := strLe_antisymm hab hba
  have h2 : b.ptype = c.ptype := h1 ▸ hac
  exact strLe_trans (nab h1) (nbc h2)

/-! Concrete states used by witnesses and counterexamples. -/

/-- Database whose enrollment table already holds the pair (1, 2). -/
def dbDup : DB := ⟨[], [], [⟨1, 1, 2⟩], 1, 1, 2⟩

/-- Database with one student and one teacher. -/
def dbP : DB :=
  ⟨[⟨1, "student", "Bob", "", "", ""⟩, ⟨2, "teacher", "Amy", "", "", ""⟩], [], [], 3, 1, 1⟩

/-! Claim theorems. -/

/-- Claim C1: if the (studentId, courseId) pair is already present,
`enroll_student` returns false and leaves the state unchanged;
otherwise it returns true and appends exactly one row with that pair,
and a second identical call then returns false and changes nothing, so
the table grows by exactly one row across the two calls. -/
theorem enroll_student_spec (db dup : DB) (s c : Nat)
    (hdup : enrollPairExists dup s c = true)
    (habs : enrollPairExists db s c = false) :
    enroll_student dup s c = (false, dup) ∧
    (enroll_student db s c).fst = true ∧
    (enroll_student db s c).snd.enrollment
      = db.enrollment ++ [⟨db.nextEnrollmentId, s, c⟩] ∧
    enroll_student (enroll_student db s c).snd s c
      = (false, (enroll_student db s c).snd) ∧
    (enroll_student (enroll_student db s c).snd s c).snd.enrollment.length
      = db.enrollment.length + 1 := by
  have hfalse : ∀ Y : DB, enrollPairExists Y s c = true →
      enroll_student Y s c = (false, Y) := fun Y hY => by
    simp [enroll_student, hY]
  have hstep : enroll_student db s c =
      (true, { db with
                enrollment := db.enrollment ++ [⟨db.nextEnrollmentId, s, c⟩],
                nextEnrollmentId := db.nextEnrollmentId + 1 }) := by
    simp [enroll_student, habs]
  have hex : enrollPairExists (enroll_student db s c).snd s c = true := by
    rw [hstep]
    simp [enrollPairExists, List.any_append]
  have h2 := hfalse _ hex
  refine ⟨hfalse dup hdup, by rw [hstep], by rw [hstep], h2, ?_⟩
  rw [h2, hstep]
  simp

/-- Witness for C1 at the concrete states `dbDup` (pair present) and
`db0` (pair absent). -/
theorem enroll_student_spec_witness :
    enroll_student dbDup 1 2 = (false, dbDup) ∧
    (enroll_student db0 1 2).fst = true ∧
    (enroll_student db0 1 2).snd.enrollment
      = db0.enrollment ++ [⟨db0.nextEnrollmentId, 1, 2⟩] ∧
    enroll_student (enroll_student db0 1 2).snd 1 2
      = (false, (enroll_student db0 1 2).snd) ∧
    (enroll_student (enroll_student db0 1 2).snd 1 2).snd.enrollment.length
      = db0.enrollment.length + 1 :=
  enroll_student_spec db0 dbDup 1 2 (by decide) (by decide)

/-- Claim C6: `delete_person` removes exactly the person rows carrying
the given id and nothing else — the enrollment table (including rows
whose student_id is the deleted id), the course table (including rows
whose teacher_id is the deleted id) and the id counters are unchanged. -/
theorem delete_person_frame (db : DB) (pid : Nat) :
    (delete_person db pid).enrollment = db.enrollment ∧
    (delete_person db pid).course = db.course ∧
    (delete_person db pid).person = db.person.filter (fun r => r.id != pid) ∧
    (delete_person db pid).nextPersonId = db.nextPersonId ∧
    (delete_person db pid).nextCourseId = db.nextCourseId ∧
    (delete_person db pid).nextEnrollmentId = db.nextEnrollmentId :=
  ⟨rfl, rfl, rfl, rfl, rfl, rfl⟩

/-- Claim C10: `get_people` with the empty string behaves exactly like
`get_people` with no type argument (the Python guard is a truthiness
test), returning all person rows ordered by (type, name). -/
theorem get_people_empty_type (db : DB) :
    get_people db (some "") = get_people db none ∧
    ∃ m : List PersonRow,
      get_people db (some "") = m.map personRow6 ∧
      m.Perm db.person ∧ m.Sorted typeNameRel := by
  refine ⟨by simp [get_people], ⟨List.insertionSort typeNameRel db.person, by simp [get_people],
    List.perm_insertionSort _ _, List.sorted_insertionSort _ _⟩⟩

/-- Claim C5: update and delete on an id absent from the targeted table
are silent no-ops: the whole database state is unchanged and no error
is raised, for `update_person`, `delete_person`, `update_course` and
`delete_course`. -/
theorem notfound_noop (db : DB) (pid cid : Nat)
    (name email phone extra title duration mode : String)
    (codeO : Option String) (tid : Option Nat)
    (hp : ∀ r ∈ db.person, r.id ≠ pid)
    (hc : ∀ r ∈ db.course, r.id ≠ cid) :
    update_person db pid name email phone extra = db ∧
    delete_person db pid = db ∧
    update_course db cid codeO title duration mode tid = .ok db ∧
    delete_course db cid = db := by
  have hpm : (db.person.map fun r =>
      if r.id = pid then
        { r with name := name, email := email, phone := phone, extra := extra }
      else r) = db.person := by
    have h2 : ∀ r ∈ db.person, (if r.id = pid then
        { r with name := name, email := email, phone := phone, extra := extra }
      else r) = id r := fun r hr => if_neg (hp r hr)
    rw [List.map_congr_left h2, List.map_id]
  have hpf : db.person.filter (fun r => r.id != pid) = db.person :=
    List.filter_eq_self.mpr fun r hr => by simpa using hp r hr
  have hcany : (db.course.any fun r => r.id == cid) = false := by
    simp only [List.any_eq_false]
    intro r hr
    simpa using hc r hr
  have hcm : (db.course.map fun r =>
      if r.id = cid then
        { r with code := codeO, title := title, duration := duration,
                 mode := mode, teacher_id := tid }
      else r) = db.course := by
    have h2 : ∀ r ∈ db.course, (if r.id = cid then
        { r with code := codeO, title := title, duration := duration,
                 mode := mode, teacher_id := tid }
      else r) = id r := fun r hr => if_neg (hc r hr)
    rw [List.map_congr_left h2, List.map_id]
  have hcf : db.course.filter (fun r => r.id != cid) = db.course :=
    List.filter_eq_self.mpr fun r hr => by simpa using hc r hr
  refine ⟨?_, ?_, ?_, ?_⟩
  · simp [update_person, hpm]
  · simp [delete_person, hpf]
  · simp [update_course, hcany, hcm]
  · simp [delete_course, hcf]

/-- Witness for C5 at `dbP` with ids 9 absent from both tables. -/
theorem notfound_noop_witness :
    update_person dbP 9 "N" "E" "P" "X" = dbP ∧
    delete_person dbP 9 = dbP ∧
    update_course dbP 9 none "T" "D" "M" none = .ok dbP ∧
    delete_course dbP 9 = dbP :=
  notfound_noop dbP 9 9 "N" "E" "P" "X" "T" "D" "M" none none
    (by decide) (by decide)

/-- Claim C7: with a non-empty type, `get_people` returns exactly the
person rows of that type (projected to id,name,email,phone,extra)
sorted by name ascending; with no type argument it returns all person
rows (projected to id,type,name,email,phone,extra) sorted by
(type, name). -/
theorem get_people_spec (db : DB) (t : String) (ht : t ≠ "") :
    (∃ l : List PersonRow,
        get_people db (some t) = l.map personRow5 ∧
        l.Perm (db.person.filter fun r => r.ptype == t) ∧
        l.Sorted nameRel) ∧
    (∃ m : List PersonRow,
        get_people db none = m.map personRow6 ∧
        m.Perm db.person ∧
        m.Sorted typeNameRel) := by
  refine ⟨⟨List.insertionSort nameRel (db.person.filter fun r => r.ptype == t),
      by simp [get_people, ht], List.perm_insertionSort _ _,
      List.sorted_insertionSort _ _⟩,
    ⟨List.insertionSort typeNameRel db.person, rfl,
      List.perm_insertionSort _ _, List.sorted_insertionSort _ _⟩⟩

/-- Witness for C7 at `dbP` with type student. -/
theorem get_people_spec_witness :
    (∃ l : List PersonRow,
        get_people dbP (some "student") = l.map personRow5 ∧
        l.Perm (dbP.person.filter fun r => r.ptype == "student") ∧
        l.Sorted nameRel) ∧
    (∃ m : List PersonRow,
        get_people dbP none = m.map personRow6 ∧
        m.Perm dbP.person ∧
        m.Sorted typeNameRel) :=
  get_people_spec dbP "student" (by decide)

/-- Counterexample to claim C2: at the concrete call
`add_person db0 "student" "Alice" "" "" ""` the newly assigned
surrogate id is `db0.nextPersonId = 1`, but the function (a Python
function with no return statement) returns None, not that id. -/
theorem add_person_id_return_cex :
    ¬ ((add_person db0 "student" "Alice" "" "" "").fst = some db0.nextPersonId) := by
  decide

/-- Claim C2 amended: `add_person` inserts exactly one new row carrying
the newly assigned surrogate id but returns None rather than the id;
likewise a successful `add_course` inserts the row with the new course
id yet also returns None. -/
theorem add_person_returns_none (db : DB) (t n e p x : String)
    (codeO : Option String) (ti du mo : String) (res : Option Nat × DB)
    (hok : add_course db codeO ti du mo = .ok res) :
    (add_person db t n e p x).fst = none ∧
    (add_person db t n e p x).snd.person
      = db.person ++ [⟨db.nextPersonId, t, n, e, p, x⟩] ∧
    res.fst = none ∧
    res.snd.course = db.course ++ [⟨db.nextCourseId, codeO, ti, du, mo, none⟩] := by
  unfold add_course at hok
  split at hok
  · simp at hok
  · cases hok
    exact ⟨rfl, rfl, rfl, rfl⟩

/-- Database holding the single course (1, CS101, Intro). -/
def dbCS : DB := ⟨[], [⟨1, some "CS101", "Intro", "", "", none⟩], [], 1, 2, 1⟩

/-- Witness for the amended C2 at `db0`. -/
theorem add_person_returns_none_witness :
    (add_person db0 "student" "Alice" "" "" "").fst = none ∧
    (add_person db0 "student" "Alice" "" "" "").snd.person
      = db0.person ++ [⟨db0.nextPersonId, "student", "Alice", "", "", ""⟩] ∧
    ((none : Option Nat), dbCS).fst = none ∧
    ((none : Option Nat), dbCS).snd.course
      = db0.course ++ [⟨db0.nextCourseId, some "CS101", "Intro", "", "", none⟩] :=
  add_person_returns_none db0 "student" "Alice" "" "" ""
    (some "CS101") "Intro" "" "" ((none : Option Nat), dbCS) rfl

/-- Database holding one course whose code is the empty string. -/
def dbEmptyCode : DB := ⟨[], [⟨1, some "", "Intro", "", "", none⟩], [], 1, 2, 1⟩

/-- Counterexample to claim C3: inserting a first course with the empty
string as code succeeds, but a second insert with the empty-string code
raises the uniqueness IntegrityError — SQLite UNIQUE treats the empty
string as an ordinary value, so empty codes do conflict. -/
theorem add_course_empty_code_cex :
    add_course db0 (some "") "Intro" "" "" = .ok ((none : Option Nat), dbEmptyCode) ∧
    add_course dbEmptyCode (some "") "Other" "" "" = .error () :=
  ⟨rfl, rfl⟩

/-- Claim C3 amended: inserting a course whose code string equals an
existing course code — whether that string is empty or not — fails with
the uniqueness constraint error and adds no row; only courses with an
absent (NULL) code never conflict. -/
theorem add_course_unique_spec (db : DB) (v title duration mode : String)
    (hdup : (db.course.any fun r => r.code == some v) = true) :
    add_course db (some v) title duration mode = .error () ∧
    (∀ db2 : DB, ∀ t2 d2 m2 : String,
      (add_course db2 none t2 d2 m2).isOk = true) := by
  constructor
  · simp [add_course, codeConflicts, hdup]
  · intro db2 t2 d2 m2
    rfl

/-- Witness for the amended C3 at `dbEmptyCode` and `db0`. -/
theorem add_course_unique_spec_witness :
    add_course dbEmptyCode (some "") "X" "" "" = .error () ∧
    (add_course db0 none "Y" "" "").isOk = true :=
  ⟨(add_course_unique_spec dbEmptyCode "" "X" "" "" (by decide)).1,
   (add_course_unique_spec dbEmptyCode "" "X" "" "" (by decide)).2 db0 "Y" "" ""⟩

/-- Successful `update_course` with teacher_id None leaves every
updated row with a NULL teacher. -/
theorem update_course_ok_clears {db : DB} {cid : Nat} {codeO : Option String}
    {title duration mode : String} {db' : DB}
    (h : update_course db cid codeO title duration mode none = .ok db') :
    ((db'.course.filter fun r => r.id == cid).all
      fun r => r.teacher_id == none) = true := by
  unfold update_course at h
  split at h
  · simp at h
  · cases h
    simp only [List.all_eq_true]
    intro r hr
    obtain ⟨hmem, hid⟩ := List.mem_filter.mp hr
    obtain ⟨r0, _, hr0⟩ := List.mem_map.mp hmem
    by_cases h0 : r0.id = cid
    · rw [if_pos h0] at hr0
      rw [← hr0]
      rfl
    · rw [if_neg h0] at hr0
      rw [← hr0] at hid
      exact absurd (by simpa using hid) h0

/-- Claim C9: an `update_course` call that omits teacherId (passing
None) always stores NULL in teacher_id when it succeeds, silently
discarding any assignment previously made with
`assign_teacher_to_course`. -/
theorem update_course_clears_teacher (db : DB) (cid tprev : Nat)
    (codeO : Option String) (title duration mode : String) (db1 db2 : DB)
    (h1 : update_course db cid codeO title duration mode none = .ok db1)
    (h2 : update_course (assign_teacher_to_course db cid tprev)
            cid codeO title duration mode none = .ok db2) :
    ((db1.course.filter fun r => r.id == cid).all
      fun r => r.teacher_id == none) = true ∧
    ((db2.course.filter fun r => r.id == cid).all
      fun r => r.teacher_id == none) = true :=
  ⟨update_course_ok_clears h1, update_course_ok_clears h2⟩

/-- Database with one course assigned to teacher 5. -/
def dbC9 : DB := ⟨[], [⟨1, some "C", "T", "", "", some 5⟩], [], 1, 2, 1⟩

/-- Result of updating course 1 of `dbC9` with teacher_id None. -/
def dbC9r : DB := ⟨[], [⟨1, some "C", "T2", "", "", none⟩], [], 1, 2, 1⟩

/-- Witness for C9 at `dbC9`, previously assigned teacher 7. -/
theorem update_course_clears_teacher_witness :
    ((dbC9r.course.filter fun r => r.id == 1).all
      fun r => r.teacher_id == none) = true ∧
    ((dbC9r.course.filter fun r => r.id == 1).all
      fun r => r.teacher_id == none) = true :=
  update_course_clears_teacher dbC9 1 7 (some "C") "T2" "" "" dbC9r dbC9r
    rfl rfl

/-! Helper lemmas for C8. -/

/-- The 5-column projection is injective on rows sharing one type. -/
theorem personRow5_inj {a b : PersonRow} (ht : a.ptype = b.ptype)
    (h : personRow5 a = personRow5 b) : a = b := by
  obtain ⟨ia, ta, na, ea, pa, xa⟩ := a
  obtain ⟨ib, tb, nb, eb, pb, xb⟩ := b
  simp only [personRow5, List.cons.injEq, Cell.int.injEq, Cell.text.injEq, and_true] at h
  simp only at ht
  obtain ⟨h1, h2, h3, h4, h5⟩ := h
  simp [h1, h2, h3, h4, h5, ht]

/-- Mapping `personRow5` over rows of one fixed type preserves
occurrence counts. -/
theorem count_personRow5_map (t : String) (nr : PersonRow) (l : List PersonRow)
    (hl : ∀ r ∈ l, r.ptype = t) (hnr : nr.ptype = t) :
    (l.map personRow5).count (personRow5 nr) = l.count nr := by
  induction l with
  | nil => rfl
  | cons a l ih =>
    have ha := hl a (by simp)
    have hrec := ih fun r hr => hl r (by simp [hr])
    by_cases he : a = nr
    · subst he
      simp [List.count_cons, hrec]
    · have hne : personRow5 a ≠ personRow5 nr :=
        fun hcon => he (personRow5_inj (ha.trans hnr.symm) hcon)
      simp [List.count_cons, hrec, he, hne]

/-- Claim C8: after `add_person db t n ...`, querying `get_people`
with the same (non-empty) type lists the newly inserted row exactly
once, provided all pre-existing ids are below the fresh id (which the
AUTOINCREMENT counter guarantees). -/
theorem add_person_then_get_people_once (db : DB) (t n e p x : String)
    (ht : t ≠ "")
    (hwf : ∀ r ∈ db.person, r.id < db.nextPersonId) :
    ((get_people (add_person db t n e p x).snd (some t)).count
        (personRow5 ⟨db.nextPersonId, t, n, e, p, x⟩)) = 1 := by
  have hpp : (add_person db t n e p x).snd.person
      = db.person ++ [PersonRow.mk db.nextPersonId t n e p x] := rfl
  have hgp : get_people (add_person db t n e p x).snd (some t)
      = (List.insertionSort nameRel
          (((add_person db t n e p x).snd.person).filter
            fun r => r.ptype == t)).map personRow5 := by
    simp [get_people, ht]
  rw [hgp, hpp]
  have hmem : ∀ r ∈ List.insertionSort nameRel
      ((db.person ++ [PersonRow.mk db.nextPersonId t n e p x]).filter
        fun r => r.ptype == t), r.ptype = t := by
    intro r hr
    have h1 := (List.perm_insertionSort nameRel _).mem_iff.mp hr
    simpa using (List.mem_filter.mp h1).2
  rw [count_personRow5_map t _ _ hmem rfl]
  rw [(List.perm_insertionSort nameRel _).count_eq]
  rw [List.count_filter (by simp)]
  rw [List.count_append]
  have h0 : db.person.count ⟨db.nextPersonId, t, n, e, p, x⟩ = 0 := by
    rw [List.count_eq_zero]
    intro hmem2
    exact Nat.lt_irrefl _ (hwf _ hmem2)
  rw [h0]
  simp

/-- Witness for C8 at `db0`. -/
theorem add_person_then_get_people_once_witness :
    ((get_people (add_person db0 "student" "Alice" "" "" "").snd (some "student")).count
        (personRow5 ⟨db0.nextPersonId, "student", "Alice", "", "", ""⟩)) = 1 :=
  add_person_then_get_people_once db0 "student" "Alice" "" "" ""
    (by decide) (by simp [db0])

/-! Helper lemmas for C4. -/

/-- Every report row produced for a teacher carries that teacher id
and name. -/
theorem teacherRows_fields {courses : List CourseRow} {t : PersonRow}
    {r : TeacherReportRow} (hr : r ∈ teacherRows courses t) :
    r.tid = t.id ∧ r.tname = t.name := by
  unfold teacherRows at hr
  split at hr
  · simp at hr
    rw [hr]
    exact ⟨rfl, rfl⟩
  · obtain ⟨c, _, hc⟩ := List.mem_map.mp hr
    rw [← hc]
    exact ⟨rfl, rfl⟩

/-- Rows of a different teacher never survive the tid filter. -/
theorem filter_teacherRows_ne {courses : List CourseRow} {t : PersonRow}
    {i : Nat} (hne : t.id ≠ i) :
    (teacherRows courses t).filter (fun r => r.tid == i) = [] := by
  rw [List.filter_eq_nil_iff]
  intro r hr
  simp [(teacherRows_fields hr).1, hne]

/-- Filtering a teacher block by its own id keeps every row. -/
theorem filter_teacherRows_self {courses : List CourseRow} {t : PersonRow} :
    (teacherRows courses t).filter (fun r => r.tid == t.id) = teacherRows courses t :=
  List.filter_eq_self.mpr fun r hr => by simp [(teacherRows_fields hr).1]

/-- Number of report rows of one teacher: one per course taught, or a
single placeholder row when none. -/
theorem length_teacherRows {courses : List CourseRow} {t : PersonRow} :
    (teacherRows courses t).length
      = max 1 (courses.filter fun c => c.teacher_id == some t.id).length := by
  cases hcf : courses.filter fun c => c.teacher_id == some t.id with
  | nil => simp [teacherRows, hcf]
  | cons m ms => simp [teacherRows, hcf]

/-- Length of the tid-filtered report when the teacher occurs exactly
once in the teacher list and no other entry shares its id. -/
theorem flatMap_filter_length (courses : List CourseRow) (t : PersonRow) :
    ∀ l : List PersonRow, (∀ u ∈ l, u.id = t.id → u = t) → l.count t = 1 →
      ((l.flatMap (teacherRows courses)).filter fun r => r.tid == t.id).length
        = (teacherRows courses t).length := by
  intro l
  induction l with
  | nil =>
    intro _ hc
    simp at hc
  | cons a l ih =>
    intro hinj hc
    rw [List.flatMap_cons, List.filter_append, List.length_append]
    by_cases ha : a = t
    · subst ha
      have hc0 : l.count a = 0 := by
        rw [List.count_cons_self] at hc
        omega
      have hnotin : a ∉ l := List.count_eq_zero.mp hc0
      have hrest : ((l.flatMap (teacherRows courses)).filter
          fun r => r.tid == a.id) = [] := by
        rw [List.filter_eq_nil_iff]
        intro r hr
        obtain ⟨u, hu, hru⟩ := List.mem_flatMap.mp hr
        intro hcon
        have huid : u.id = a.id := by
          rw [← (teacherRows_fields hru).1]
          simpa using hcon
        have hua : u = a := hinj u (List.mem_cons_of_mem _ hu) huid
        rw [hua] at hu
        exact hnotin hu
      rw [filter_teacherRows_self, hrest]
      simp
    · have hne : a.id ≠ t.id := fun h => ha (hinj a (List.mem_cons_self a l) h)
      rw [filter_teacherRows_ne hne]
      have hcl : l.count t = 1 := by
        simpa [List.count_cons, ha] using hc
      simp [ih (fun u hu => hinj u (List.mem_cons_of_mem _ hu)) hcl]

/-- Expanding a name-sorted teacher list block by block keeps the
report sorted by teacher name. -/
theorem flatMap_tname_pairwise {courses : List CourseRow} :
    ∀ {l : List PersonRow}, l.Pairwise nameRel →
      (l.flatMap (teacherRows courses)).Pairwise
        (fun r1 r2 => strLe r1.tname r2.tname = true) := by
  intro l
  induction l with
  | nil =>
    intro _
    simp
  | cons a l ih =>
    intro hp
    rw [List.flatMap_cons, List.pairwise_append]
    refine ⟨?_, ih hp.of_cons, ?_⟩
    · apply List.pairwise_of_forall_mem_list
      intro r1 h1 r2 h2
      rw [(teacherRows_fields h1).2, (teacherRows_fields h2).2]
      exact strLe_refl a.name
    · intro r1 h1 r2 h2
      obtain ⟨t2, ht2, hr2⟩ := List.mem_flatMap.mp h2
      rw [(teacherRows_fields h1).2, (teacherRows_fields hr2).2]
      exact List.rel_of_pairwise_cons hp ht2

/-- Claim C4 amended: in the Teacher→Course report every teacher
appears, contributing one row per course whose teacher_id is theirs —
so possibly several rows, not at most one — and exactly one
placeholder row (NULL course columns) when they teach no course; the
report is ordered by teacher name ascending. -/
theorem get_teachers_with_courses_spec (db : DB) (tch : PersonRow)
    (hnod : (db.person.map PersonRow.id).Nodup)
    (htm : tch ∈ db.person) (htt : tch.ptype = "teacher") :
    ((get_teachers_with_courses db).filter fun r => r.tid == tch.id).length
      = max 1 (db.course.filter fun c => c.teacher_id == some tch.id).length ∧
    ((db.course.filter fun c => c.teacher_id == some tch.id) = [] →
      (⟨tch.id, tch.name, none, none, none⟩ : TeacherReportRow)
        ∈ get_teachers_with_courses db) ∧
    (get_teachers_with_courses db).Pairwise
      (fun r1 r2 => strLe r1.tname r2.tname = true) := by
  have hG : get_teachers_with_courses db
      = (List.insertionSort nameRel
          (db.person.filter fun u => u.ptype == "teacher")).flatMap
          (teacherRows db.course) := rfl
  have hperm := List.perm_insertionSort nameRel
    (db.person.filter fun u => u.ptype == "teacher")
  have hSsub : ∀ u ∈ List.insertionSort nameRel
      (db.person.filter fun u => u.ptype == "teacher"), u ∈ db.person :=
    fun u hu => (List.mem_filter.mp (hperm.mem_iff.mp hu)).1
  have hinj : ∀ u ∈ List.insertionSort nameRel
      (db.person.filter fun u => u.ptype == "teacher"), u.id = tch.id → u = tch :=
    fun u hu hid => List.inj_on_of_nodup_map hnod (hSsub u hu) htm hid
  have hcount : (List.insertionSort nameRel
      (db.person.filter fun u => u.ptype == "teacher")).count tch = 1 := by
    rw [hperm.count_eq]
    rw [List.count_filter (by simp [htt])]
    exact List.count_eq_one_of_mem (List.Nodup.of_map _ hnod) htm
  refine ⟨?_, ?_, ?_⟩
  · rw [hG, flatMap_filter_length db.course tch _ hinj hcount, length_teacherRows]
  · intro hempty
    rw [hG]
    apply List.mem_flatMap.mpr
    refine ⟨tch, hperm.mem_iff.mpr (List.mem_filter.mpr ⟨htm, by simp [htt]⟩), ?_⟩
    unfold teacherRows
    rw [hempty]
    simp
  · rw [hG]
    exact flatMap_tname_pairwise (List.sorted_insertionSort nameRel _)

/-- Teacher row used by the C4 witness. -/
def tchW : PersonRow := ⟨1, "teacher", "Ann", "", "", ""⟩

/-- Database with one teacher and no courses. -/
def dbT : DB := ⟨[tchW], [], [], 2, 1, 1⟩

/-- Witness for the amended C4 at `dbT`. -/
theorem get_teachers_with_courses_spec_witness :
    ((get_teachers_with_courses dbT).filter fun r => r.tid == tchW.id).length
      = max 1 (dbT.course.filter fun c => c.teacher_id == some tchW.id).length ∧
    (⟨tchW.id, tchW.name, none, none, none⟩ : TeacherReportRow)
      ∈ get_teachers_with_courses dbT ∧
    (get_teachers_with_courses dbT).Pairwise
      (fun r1 r2 => strLe r1.tname r2.tname = true) := by
  have h := get_teachers_with_courses_spec dbT tchW (by decide) (by decide) rfl
  exact ⟨h.1, h.2.1 rfl, h.2.2⟩

/-- Database whose single teacher teaches two courses. -/
def dbTwo : DB :=
  ⟨[⟨1, "teacher", "Bob", "", "", ""⟩],
   [⟨1, some "C1", "Algo", "", "", some 1⟩, ⟨2, some "C2", "Data", "", "", some 1⟩],
   [], 2, 3, 1⟩

/-- Counterexample to claim C4 as stated: in `dbTwo` the single teacher
(id 1) is assigned to two courses, and the Teacher→Course report
contains two rows for that teacher — a teacher does not contribute at
most one output row. -/
theorem teacher_report_two_rows_cex :
    ((get_teachers_with_courses dbTwo).filter fun r => r.tid == 1).length = 2 := by
  decide

end IMS
